import Mathlib

/-!
Shallow embedding of the kmxpad event-handling engine
(`src/types.rs` and `src/event_handler/mod.rs`).

Machine integers are modelled as `ℕ`/`ℤ`; `f64` values that only flow
through arithmetic and comparisons are modelled as `ℝ`; the `HashMap`s
are modelled as functions into `Option`; the `VecDeque` of mouse samples
as a `List` in arrival order; `Instant` as a `ℕ` tick count with
truncated subtraction for `Duration` differences.
-/

namespace Kmxpad

/-- `KeyState` from `src/types.rs`. -/
inductive KeyState
  | Up
  | Down
deriving DecidableEq, Repr

/-- The `fmt::Display` implementation for `KeyState` in `src/types.rs`
(lines 11-18): both match arms write the string `"Up"`. -/
def KeyState.display : KeyState → String
  | KeyState.Up => "Up"
  | KeyState.Down => "Up"

/-- `MouseButton` from `src/types.rs`. -/
inductive MouseButton
  | Left
  | Right
  | Middle
  | Button4
  | Button5
deriving DecidableEq, Repr

/-- `ic::ScanCode` is a 16-bit code; modelled as `ℕ`. -/
abbrev ScanCode := ℕ

/-- `Bind` from `src/event_handler/mod.rs`. -/
inductive Bind
  | Keyboard (code : ScanCode)
  | Mouse (button : MouseButton)
  | MouseMove
deriving DecidableEq, Repr

/-- `ControllerButton` from `src/types.rs`, with its `#[repr(u16)]`
discriminants recorded by `ControllerButton.toBits` below. -/
inductive ControllerButton
  | DpadUp
  | DpadDown
  | DpadLeft
  | DpadRight
  | Start
  | Back
  | LeftThumb
  | RightThumb
  | LeftShoulder
  | RightShoulder
  | Guide
  | A
  | B
  | X
  | Y
  | LeftTrigger
  | RightTrigger
deriving DecidableEq, Repr

/-- The `u16` discriminant of each `ControllerButton`
(`button as u16` in `handle_bind`). -/
def ControllerButton.toBits : ControllerButton → ℕ
  | ControllerButton.DpadUp => 1
  | ControllerButton.DpadDown => 2
  | ControllerButton.DpadLeft => 4
  | ControllerButton.DpadRight => 8
  | ControllerButton.Start => 16
  | ControllerButton.Back => 32
  | ControllerButton.LeftThumb => 64
  | ControllerButton.RightThumb => 128
  | ControllerButton.LeftShoulder => 256
  | ControllerButton.RightShoulder => 512
  | ControllerButton.Guide => 1024
  | ControllerButton.A => 4096
  | ControllerButton.B => 8192
  | ControllerButton.X => 16384
  | ControllerButton.Y => 32768
  | ControllerButton.LeftTrigger => 32769
  | ControllerButton.RightTrigger => 32770

/-- `ControllerAction` from `src/event_handler/mod.rs`; the two analog
variants carry `f64` scale factors, modelled as `ℝ`. -/
inductive ControllerAction
  | Button (button : ControllerButton)
  | AnalogLeft (x y : ℝ)
  | AnalogRight (x y : ℝ)

/-- `AnalogType` from `src/event_handler/mod.rs`. -/
inductive AnalogType
  | Left
  | Right
deriving DecidableEq, Repr

/-- `AnalogState` from `src/event_handler/mod.rs`. -/
structure AnalogState where
  analog_type : AnalogType
  x : ℝ
  y : ℝ

/-- `Event` from `src/types.rs`; mouse deltas are `i32`, modelled as `ℤ`. -/
inductive Event
  | MouseMove (x y : ℤ)
  | MouseButton (button : MouseButton) (state : KeyState)
  | Keyboard (code : ScanCode) (state : KeyState)
  | Reset

/-- `vigem::XUSBReport`: a `u16` button bitmask, two `u8` triggers and
four `i16` stick axes. -/
structure XUSBReport where
  w_buttons : ℕ
  b_left_trigger : ℕ
  b_right_trigger : ℕ
  s_thumb_lx : ℤ
  s_thumb_ly : ℤ
  s_thumb_rx : ℤ
  s_thumb_ry : ℤ
deriving DecidableEq, Repr

/-- `XUSBReport::default()`: the all-zero report. -/
def XUSBReport.zero : XUSBReport :=
  { w_buttons := 0
    b_left_trigger := 0
    b_right_trigger := 0
    s_thumb_lx := 0
    s_thumb_ly := 0
    s_thumb_rx := 0
    s_thumb_ry := 0 }

/-- The mutable state of `EventHandler` that the event-handling code
touches: the report, the mouse sample queue (`(dx, dy, t)` in arrival
order), the remembered left/right mouse-button states, and the
`analog_state` map keyed by `Bind`. -/
structure EventHandlerState where
  report : XUSBReport
  mouse_samples : List (ℤ × ℤ × ℕ)
  mouse_button_states : KeyState × KeyState
  analog_state : Bind → Option AnalogState

/-- The initial `EventHandler` state built in `EventHandler::new`. -/
def init_state : EventHandlerState :=
  { report := XUSBReport.zero
    mouse_samples := []
    mouse_button_states := (KeyState.Up, KeyState.Up)
    analog_state := fun _ => none }

/-- `HashMap::insert` on the binding table, as a function update. -/
def insertBind (m : Bind → Option ControllerAction) (k : Bind)
    (v : ControllerAction) : Bind → Option ControllerAction :=
  fun k' => if k' = k then some v else m k'

/-- The MouseMove-bind fix-up performed at the start of
`EventHandler::new` (`src/event_handler/mod.rs` lines 138-150): if the
configuration has no `MouseMove` bind, or binds it to a `Button` action,
log an error and substitute `AnalogRight(1.0, -1.0)`; otherwise leave
the table unchanged.  The `Bool` records whether the diagnostic
(`error!`) was emitted.  This fix-up itself has no failure path:
`EventHandler::new` only returns errors from the later ViGEm calls. -/
def fix_mouse_move_bind (binds : Bind → Option ControllerAction) :
    (Bind → Option ControllerAction) × Bool :=
  match binds Bind.MouseMove with
  | none =>
      (insertBind binds Bind.MouseMove (ControllerAction.AnalogRight 1 (-1)), true)
  | some (ControllerAction.Button _) =>
      (insertBind binds Bind.MouseMove (ControllerAction.AnalogRight 1 (-1)), true)
  | some _ => (binds, false)

/-- The button arm of `EventHandler::handle_bind`
(`src/event_handler/mod.rs` lines 301-320): triggers set their byte to
255 on Down and 0 on Up; every other button ORs its bit in on Down and
masks it out (bitwise AND with the 16-bit complement) on Up. -/
def handle_button (report : XUSBReport) (button : ControllerButton)
    (state : KeyState) : XUSBReport :=
  match button with
  | ControllerButton.LeftTrigger =>
      match state with
      | KeyState.Down => { report with b_left_trigger := 255 }
      | KeyState.Up => { report with b_left_trigger := 0 }
  | ControllerButton.RightTrigger =>
      match state with
      | KeyState.Down => { report with b_right_trigger := 255 }
      | KeyState.Up => { report with b_right_trigger := 0 }
  | b =>
      match state with
      | KeyState.Down =>
          { report with w_buttons := report.w_buttons ||| b.toBits }
      | KeyState.Up =>
          { report with w_buttons := report.w_buttons &&& (65535 ^^^ b.toBits) }

/-- `EventHandler::handle_bind` (`src/event_handler/mod.rs` lines
266-325).  For an analog action the code first tests
`analog_state.contains_key(&bind) && state == Up` and removes the entry;
in every other case (including an Up with no entry present) it falls
through to the insert of the configured contribution. -/
def handle_bind (binds : Bind → Option ControllerAction)
    (st : EventHandlerState) (bind : Bind) (state : KeyState) :
    EventHandlerState :=
  match binds bind with
  | some (ControllerAction.Button cb) =>
      { st with report := handle_button st.report cb state }
  | some (ControllerAction.AnalogLeft x y) =>
      if (st.analog_state bind).isSome = true ∧ state = KeyState.Up then
        { st with analog_state := fun k => if k = bind then none else st.analog_state k }
      else
        { st with analog_state := fun k =>
            if k = bind then some ⟨AnalogType.Left, x, y⟩ else st.analog_state k }
  | some (ControllerAction.AnalogRight x y) =>
      if (st.analog_state bind).isSome = true ∧ state = KeyState.Up then
        { st with analog_state := fun k => if k = bind then none else st.analog_state k }
      else
        { st with analog_state := fun k =>
            if k = bind then some ⟨AnalogType.Right, x, y⟩ else st.analog_state k }
  | none => st

/-- Recording of an incoming mouse-button event into
`mouse_button_states` (`src/event_handler/mod.rs` lines 211-217): the
`Left` event overwrites the first component, the `Right` event the
second, any other button leaves both unchanged. -/
def record_mouse_button (states : KeyState × KeyState)
    (button : MouseButton) (state : KeyState) : KeyState × KeyState :=
  (if button = MouseButton.Left then state else states.1,
   if button = MouseButton.Right then state else states.2)

/-- The sequence of `handle_bind` invocations made while processing one
`Event::MouseButton` (`src/event_handler/mod.rs` lines 210-230): first
the direct call for the event itself, then — when the mouse-button fix
is enabled and the event state is Up — a synthetic Down for Left and/or
Right, in that order, for each whose recorded state is still Down. -/
def mouse_button_calls (mouse_button_fix : Bool)
    (states : KeyState × KeyState) (button : MouseButton)
    (state : KeyState) : List (Bind × KeyState) :=
  let states' := record_mouse_button states button state
  (Bind.Mouse button, state) ::
    (if mouse_button_fix = true ∧ state = KeyState.Up then
      (if states'.1 = KeyState.Down then [(Bind.Mouse MouseButton.Left, KeyState.Down)] else []) ++
      (if states'.2 = KeyState.Down then [(Bind.Mouse MouseButton.Right, KeyState.Down)] else [])
    else [])

/-- One step of the event dispatch in `EventHandler::run`
(`src/event_handler/mod.rs` lines 203-241), at clock value `now`.
The mouse-button arm records the new button states and then performs the
`handle_bind` calls listed by `mouse_button_calls` (the fix conditions
in the source read `self.mouse_button_states` after the recording, and
`handle_bind` never modifies that field, so the fold is the source's
call sequence). -/
def handle_event (binds : Bind → Option ControllerAction)
    (mouse_button_fix : Bool) (now : ℕ) (st : EventHandlerState) :
    Event → EventHandlerState
  | Event.MouseMove x y =>
      { st with mouse_samples := st.mouse_samples ++ [(x, y, now)] }
  | Event.MouseButton button state =>
      let st1 := { st with mouse_button_states :=
        record_mouse_button st.mouse_button_states button state }
      (mouse_button_calls mouse_button_fix st.mouse_button_states button state).foldl
        (fun s p => handle_bind binds s p.1 p.2) st1
  | Event.Keyboard code state => handle_bind binds st (Bind.Keyboard code) state
  | Event.Reset =>
      { st with
        mouse_button_states := (KeyState.Up, KeyState.Up)
        report := XUSBReport.zero }

/-- The front-eviction loop at the start of
`EventHandler::update_analog` (`src/event_handler/mod.rs` lines
375-386): pop samples from the front while the front sample's age
`now - t` exceeds the sample window; stop at the first sample that is
young enough. -/
def evict_samples (samples : List (ℤ × ℤ × ℕ)) (now window : ℕ) :
    List (ℤ × ℤ × ℕ) :=
  match samples with
  | [] => []
  | s :: rest =>
      if now - s.2.2 > window then evict_samples rest now window else s :: rest

/-- `EventHandler::ANALOG_MAX = -(i16::MIN as f64) = 32768.0`. -/
def ANALOG_MAX : ℝ := 32768

/-- Rust's `f64 as i16` cast: truncation toward zero, saturating at the
`i16` bounds.  (Reals have no NaN, so the NaN-to-zero rule of the cast
has no counterpart here.) -/
noncomputable def as_i16 (r : ℝ) : ℤ :=
  max (-32768) (min 32767 (if 0 ≤ r then ⌊r⌋ else ⌈r⌉))

/-- `f64::atan2`: `y.atan2(x)` is the argument of the complex number
`x + y·i`, with `atan2(0, 0) = 0` just as in Rust. -/
noncomputable def atan2 (y x : ℝ) : ℝ := Complex.arg ⟨x, y⟩

/-- `EventHandler::set_analog_circularized` (`src/event_handler/mod.rs`
lines 440-453), as the pair of axis values written to the selected
stick's fields: the `Left` and `Right` match arms of the source compute
the same two expressions and differ only in which report fields receive
them. -/
noncomputable def set_analog_circularized (x y : ℝ) : ℤ × ℤ :=
  let angle := atan2 y x
  let radius := Real.sqrt (x ^ 2 + y ^ 2)
  (as_i16 (Real.cos angle * radius * ANALOG_MAX),
   as_i16 (Real.sin angle * radius * ANALOG_MAX))

/-- `EventHandler::set_analog_linear` (`src/event_handler/mod.rs` lines
455-487), as the pair of axis values written to the selected stick's
fields (the `Left`/`Right` arms again compute identical expressions). -/
noncomputable def set_analog_linear (x y : ℝ) : ℤ × ℤ :=
  if |x| ≤ 1 ∧ |y| ≤ 1 then
    (as_i16 (x * ANALOG_MAX), as_i16 (y * ANALOG_MAX))
  else
    let overshoot := max |x| |y|
    let angle := atan2 y x
    let radius := Real.sqrt (x ^ 2 + y ^ 2)
    let new_radius := radius / overshoot
    (as_i16 (Real.cos angle * new_radius * ANALOG_MAX),
     as_i16 (Real.sin angle * new_radius * ANALOG_MAX))

/-- The alert condition computed at the top of
`EventHandler::set_analog` (`src/event_handler/mod.rs` line 430). -/
def oversteer_alert (x y threshold : ℝ) : Prop := max |x| |y| ≥ threshold

/-- `EventHandler::set_analog` (`src/event_handler/mod.rs` lines
429-438) for one stick total `(x, y)`: the first component is the pair
of axis values committed to that stick's report fields; the second is
the list of `enable` calls made on the tone generator —
`self.tone_generator.as_mut().map(|tg| tg.enable(alert))` makes exactly
one call when a generator is present (`has_tone = true`) and none
otherwise.  The argument of the call is recorded as the proposition
`oversteer_alert x y threshold` (`enable(true)` at totals where it
holds, `enable(false)` elsewhere). -/
noncomputable def set_analog (has_tone analog_circularize : Bool)
    (threshold x y : ℝ) : (ℤ × ℤ) × List Prop :=
  ((if analog_circularize = true then set_analog_circularized x y
    else set_analog_linear x y),
   if has_tone = true then [oversteer_alert x y threshold] else [])

/-! ### Helper lemmas about the shaping arithmetic -/

lemma as_i16_intCast (n : ℤ) : as_i16 (n : ℝ) = max (-32768) (min 32767 n) := by
  unfold as_i16
  rcases le_or_lt (0 : ℝ) (n : ℝ) with h | h
  · rw [if_pos h, Int.floor_intCast]
  · rw [if_neg (not_le.mpr h), Int.ceil_intCast]

lemma neg_le_as_i16 (r : ℝ) : -32768 ≤ as_i16 r := le_max_left _ _

lemma as_i16_le (r : ℝ) : as_i16 r ≤ 32767 := by
  unfold as_i16
  exact max_le (by norm_num) (min_le_left _ _)

lemma sqrt_sq_add_sq_eq_abs (x y : ℝ) :
    Real.sqrt (x ^ 2 + y ^ 2) = Complex.abs ⟨x, y⟩ := by
  rw [Complex.abs_apply, Complex.normSq_mk]
  ring_nf

lemma cos_atan2_mul (x y : ℝ) :
    Real.cos (atan2 y x) * Real.sqrt (x ^ 2 + y ^ 2) = x := by
  rcases eq_or_ne (⟨x, y⟩ : ℂ) 0 with h | h
  · have hx : x = 0 := by
      have := congrArg Complex.re h
      simpa using this
    have hy : y = 0 := by
      have := congrArg Complex.im h
      simpa using this
    subst hx; subst hy
    simp
  · have habs : Complex.abs ⟨x, y⟩ ≠ 0 := Complex.abs.ne_zero h
    rw [atan2, Complex.cos_arg h, sqrt_sq_add_sq_eq_abs]
    show x / Complex.abs ⟨x, y⟩ * Complex.abs ⟨x, y⟩ = x
    exact div_mul_cancel₀ x habs

lemma sin_atan2_mul (x y : ℝ) :
    Real.sin (atan2 y x) * Real.sqrt (x ^ 2 + y ^ 2) = y := by
  rcases eq_or_ne (⟨x, y⟩ : ℂ) 0 with h | h
  · have hx : x = 0 := by
      have := congrArg Complex.re h
      simpa using this
    have hy : y = 0 := by
      have := congrArg Complex.im h
      simpa using this
    subst hx; subst hy
    simp
  · have habs : Complex.abs ⟨x, y⟩ ≠ 0 := Complex.abs.ne_zero h
    rw [atan2, Complex.sin_arg, sqrt_sq_add_sq_eq_abs]
    show y / Complex.abs ⟨x, y⟩ * Complex.abs ⟨x, y⟩ = y
    exact div_mul_cancel₀ y habs

/-- In circularized mode the polar round trip is exact: the committed
axes are just the saturating truncation of `x * 32768` and `y * 32768`,
with no clamping of the radius. -/
lemma set_analog_circularized_eq (x y : ℝ) :
    set_analog_circularized x y =
      (as_i16 (x * ANALOG_MAX), as_i16 (y * ANALOG_MAX)) := by
  simp only [set_analog_circularized]
  rw [cos_atan2_mul, sin_atan2_mul]

lemma set_analog_linear_inbox (x y : ℝ) (hx : |x| ≤ 1) (hy : |y| ≤ 1) :
    set_analog_linear x y = (as_i16 (x * ANALOG_MAX), as_i16 (y * ANALOG_MAX)) := by
  simp only [set_analog_linear, if_pos (And.intro hx hy)]

lemma set_analog_linear_overshoot (x y : ℝ) (h : ¬(|x| ≤ 1 ∧ |y| ≤ 1)) :
    set_analog_linear x y =
      (as_i16 (x / max |x| |y| * ANALOG_MAX),
       as_i16 (y / max |x| |y| * ANALOG_MAX)) := by
  simp only [set_analog_linear, if_neg h]
  rw [← mul_div_assoc, ← mul_div_assoc, cos_atan2_mul, sin_atan2_mul]

lemma as_i16_zero : as_i16 0 = 0 := by
  rw [show (0 : ℝ) = ((0 : ℤ) : ℝ) by norm_num, as_i16_intCast]
  decide

lemma as_i16_half_max : as_i16 (1 / 2 * ANALOG_MAX) = 16384 := by
  rw [show (1 / 2 : ℝ) * ANALOG_MAX = ((16384 : ℤ) : ℝ) by norm_num [ANALOG_MAX],
    as_i16_intCast]
  decide

lemma as_i16_neg_half_max : as_i16 (-(1 / 2) * ANALOG_MAX) = -16384 := by
  rw [show (-(1 / 2) : ℝ) * ANALOG_MAX = ((-16384 : ℤ) : ℝ) by norm_num [ANALOG_MAX],
    as_i16_intCast]
  decide

lemma as_i16_three_halves : as_i16 (3 / 2) = 1 := by
  unfold as_i16
  rw [if_pos (by norm_num : (0 : ℝ) ≤ 3 / 2)]
  rw [show ⌊(3 / 2 : ℝ)⌋ = 1 from Int.floor_eq_iff.mpr (by norm_num)]
  decide

/-! ### Claim theorems -/

/-- Claim C9: shaping the zero stick total `(0, 0)` is well defined in
both modes: the embedded shaping functions are total, `atan2 0 0 = 0`
(the `Complex.arg` of zero, as in Rust's `f64::atan2`), and both modes
emit `(0, 0)`, so the mathematically undefined angle of the zero vector
never raises an error. -/
theorem zero_vector_shaping_defined :
    set_analog_linear 0 0 = (0, 0) ∧ set_analog_circularized 0 0 = (0, 0) := by
  constructor
  · rw [set_analog_linear_inbox 0 0 (by rw [abs_zero]; norm_num)
      (by rw [abs_zero]; norm_num), zero_mul, as_i16_zero]
  · rw [set_analog_circularized_eq, zero_mul, as_i16_zero]

/-- Claim C3 (amended): linear-mode shaping.  Inside the unit box the
emitted axes are the Rust `as i16` conversion — truncation toward zero
with saturation, not rounding to nearest — of `x * 32768` and
`y * 32768`, and `(0.5, -0.5)` maps exactly to `(16384, -16384)`.
Outside the box, with `overshoot = max |x| |y|`, the polar decomposition
collapses to `x / overshoot * 32768` per axis, so `(2, 0)` yields
`(32767, 0)` (`32768` capped to the `i16` maximum), direction preserved
with the dominant axis at unit magnitude. -/
theorem linear_shaping_truncates :
    (∀ x y : ℝ, |x| ≤ 1 → |y| ≤ 1 →
      set_analog_linear x y = (as_i16 (x * ANALOG_MAX), as_i16 (y * ANALOG_MAX))) ∧
    set_analog_linear (1 / 2) (-(1 / 2)) = (16384, -16384) ∧
    (∀ x y : ℝ, ¬(|x| ≤ 1 ∧ |y| ≤ 1) →
      set_analog_linear x y =
        (as_i16 (x / max |x| |y| * ANALOG_MAX),
         as_i16 (y / max |x| |y| * ANALOG_MAX))) ∧
    set_analog_linear 2 0 = (32767, 0) := by
  refine ⟨set_analog_linear_inbox, ?_, set_analog_linear_overshoot, ?_⟩
  · rw [set_analog_linear_inbox _ _ (abs_le.mpr (by constructor <;> norm_num))
      (abs_le.mpr (by constructor <;> norm_num))]
    rw [as_i16_half_max, as_i16_neg_half_max]
  · rw [set_analog_linear_overshoot 2 0
      (fun hc => absurd (abs_le.mp hc.1).2 (by norm_num))]
    have hm : max |(2 : ℝ)| |(0 : ℝ)| = 2 := by
      rw [abs_two, abs_zero]
      exact max_eq_left (by norm_num)
    rw [hm]
    rw [show (2 : ℝ) / 2 * ANALOG_MAX = ((32768 : ℤ) : ℝ) by norm_num [ANALOG_MAX]]
    rw [show (0 : ℝ) / 2 * ANALOG_MAX = ((0 : ℤ) : ℝ) by norm_num]
    rw [as_i16_intCast, as_i16_intCast]
    decide

/-- Claim C3 witness: the two universally quantified parts of
`linear_shaping_truncates` applied at the concrete totals `(1/2, 0)`
(inside the unit box) and `(2, 0)` (overshoot). -/
theorem linear_shaping_truncates_witness :
    set_analog_linear (1 / 2) 0 =
      (as_i16 (1 / 2 * ANALOG_MAX), as_i16 (0 * ANALOG_MAX)) ∧
    set_analog_linear 2 0 =
      (as_i16 ((2 : ℝ) / max |(2 : ℝ)| |(0 : ℝ)| * ANALOG_MAX),
       as_i16 ((0 : ℝ) / max |(2 : ℝ)| |(0 : ℝ)| * ANALOG_MAX)) :=
  ⟨linear_shaping_truncates.1 (1 / 2) 0
      (abs_le.mpr (by constructor <;> norm_num))
      (abs_le.mpr (by constructor <;> norm_num)),
   linear_shaping_truncates.2.2.1 2 0
      (fun hc => absurd (abs_le.mp hc.1).2 (by norm_num))⟩

/-- Claim C3 counterexample: at the stick total `(3/65536, 0)`, inside
the unit box, the code emits axis value `1` — the `as i16` cast
truncates `1.5` — while `round((3/65536) * 32768) = round 1.5 = 2`, so
the claimed round-to-nearest semantics does not hold. -/
theorem linear_shaping_round_counterexample :
    set_analog_linear (3 / 65536) 0 = (1, 0) ∧
    round ((3 / 65536 : ℝ) * ANALOG_MAX) = 2 ∧
    (set_analog_linear (3 / 65536) 0).1 ≠ round ((3 / 65536 : ℝ) * ANALOG_MAX) := by
  have hin : set_analog_linear (3 / 65536) 0 = (1, 0) := by
    rw [set_analog_linear_inbox _ _ (abs_le.mpr (by constructor <;> norm_num))
      (abs_le.mpr (by constructor <;> norm_num))]
    rw [show (3 / 65536 : ℝ) * ANALOG_MAX = 3 / 2 by norm_num [ANALOG_MAX]]
    rw [show (0 : ℝ) * ANALOG_MAX = ((0 : ℤ) : ℝ) by norm_num]
    rw [as_i16_three_halves, as_i16_intCast]
    decide
  have hr : round ((3 / 65536 : ℝ) * ANALOG_MAX) = 2 := by
    rw [show (3 / 65536 : ℝ) * ANALOG_MAX = 3 / 2 by norm_num [ANALOG_MAX], round_eq]
    rw [show (3 / 2 : ℝ) + 1 / 2 = ((2 : ℤ) : ℝ) by norm_num]
    exact Int.floor_intCast 2
  exact ⟨hin, hr, by rw [hin, hr]; decide⟩

/-- Claim C4 (amended): circularized-mode shaping emits
`cos(atan2(y,x)) * sqrt(x²+y²) * 32768` per axis with no clamping of the
radius — the polar round trip makes this exactly `x * 32768` (resp.
`y * 32768`) — and the final `f64`-to-`i16` conversion saturates at the
`i16` bounds rather than wrapping.  Input `(1, 1)` therefore yields both
axes `32767` (the exact value `32768` saturated to the `i16` maximum),
not ≈ 23170. -/
theorem circularized_shaping_saturates :
    (∀ x y : ℝ, set_analog_circularized x y =
      (as_i16 (x * ANALOG_MAX), as_i16 (y * ANALOG_MAX))) ∧
    (∀ x y : ℝ,
      -32768 ≤ (set_analog_circularized x y).1 ∧
      (set_analog_circularized x y).1 ≤ 32767 ∧
      -32768 ≤ (set_analog_circularized x y).2 ∧
      (set_analog_circularized x y).2 ≤ 32767) ∧
    set_analog_circularized 1 1 = (32767, 32767) := by
  refine ⟨set_analog_circularized_eq, ?_, ?_⟩
  · intro x y
    rw [set_analog_circularized_eq]
    exact ⟨neg_le_as_i16 _, as_i16_le _, neg_le_as_i16 _, as_i16_le _⟩
  · rw [set_analog_circularized_eq,
      show (1 : ℝ) * ANALOG_MAX = ((32768 : ℤ) : ℝ) by norm_num [ANALOG_MAX],
      as_i16_intCast]
    decide

/-- Claim C4 counterexample: in circularized mode the stick total
`(1, 1)` produces axis value `32767` — more than 9000 counts above the
≈ 23170 the claim predicts for this input. -/
theorem circularized_example_counterexample :
    set_analog_circularized 1 1 = (32767, 32767) ∧
    (23170 : ℤ) + 9000 < (set_analog_circularized 1 1).1 := by
  have h : set_analog_circularized 1 1 = (32767, 32767) := by
    rw [set_analog_circularized_eq,
      show (1 : ℝ) * ANALOG_MAX = ((32768 : ℤ) : ℝ) by norm_num [ANALOG_MAX],
      as_i16_intCast]
    decide
  exact ⟨h, by rw [h]; decide⟩

/-- Claim C6: whenever a tone generator is present (`has_tone = true`),
evaluating a stick total `(x, y)` in `set_analog` makes exactly one
`enable` call, whose argument is the condition
`max |x| |y| ≥ threshold`; in particular with the threshold `3/2 = 1.5`,
any stick total with `max |x| |y| ≥ 3/2` makes an `enable(true)` call in
that same evaluation. -/
theorem oversteer_alert_enable_call (circ : Bool) (x y threshold : ℝ) :
    (set_analog true circ threshold x y).2 = [oversteer_alert x y threshold] ∧
    (oversteer_alert x y threshold ↔ max |x| |y| ≥ threshold) ∧
    (max |x| |y| ≥ 3 / 2 → oversteer_alert x y (3 / 2)) := by
  refine ⟨?_, Iff.rfl, fun h => h⟩
  simp [set_analog]

/-- Claim C6 witness: with a tone generator present, threshold `1.5` and
the stick total `(2, 0)` (so `max |x| |y| = 2 ≥ 1.5`), the single
`enable` call is made and its argument holds. -/
theorem oversteer_alert_enable_call_witness :
    (set_analog true false (3 / 2) 2 0).2 = [oversteer_alert 2 0 (3 / 2)] ∧
    oversteer_alert 2 0 (3 / 2) :=
  ⟨(oversteer_alert_enable_call false 2 0 (3 / 2)).1,
   (oversteer_alert_enable_call false 2 0 (3 / 2)).2.2
     (by rw [abs_two, abs_zero]
         exact le_trans (by norm_num) (le_max_left 2 0))⟩

/-- Claim C7: for a mouse-sample queue with non-decreasing timestamps,
the per-tick front eviction with window `window` at time `now` retains
no sample whose age `now - t` exceeds the window, evicts no sample whose
age is within the window, and is a prefix trim: the retained samples are
a suffix of the queue in arrival order. -/
theorem evict_samples_window_correct (samples : List (ℤ × ℤ × ℕ))
    (now window : ℕ)
    (hsorted : List.Pairwise (fun a b => a.2.2 ≤ b.2.2) samples) :
    (∀ s ∈ evict_samples samples now window, now - s.2.2 ≤ window) ∧
    (∀ s ∈ samples, now - s.2.2 ≤ window → s ∈ evict_samples samples now window) ∧
    (evict_samples samples now window).IsSuffix samples := by
  induction hsorted with
  | nil =>
      exact ⟨fun s hs => by simp [evict_samples] at hs,
             fun s hs => by simp at hs,
             List.suffix_rfl⟩
  | @cons a rest ha hrest ih =>
      by_cases h : now - a.2.2 > window
      · have he : evict_samples (a :: rest) now window =
            evict_samples rest now window := by
          simp [evict_samples, if_pos h]
        refine ⟨?_, ?_, ?_⟩
        · rw [he]; exact ih.1
        · intro s hs hage
          rw [he]
          rcases List.mem_cons.mp hs with rfl | hsr
          · exact absurd hage (not_le.mpr h)
          · exact ih.2.1 s hsr hage
        · rw [he]
          exact ih.2.2.trans (List.suffix_cons a rest)
      · have he : evict_samples (a :: rest) now window = a :: rest := by
          simp [evict_samples, if_neg h]
        refine ⟨?_, ?_, ?_⟩
        · intro s hs
          rw [he] at hs
          rcases List.mem_cons.mp hs with rfl | hsr
          · omega
          · have := ha s hsr
            omega
        · intro s hs _
          rw [he]; exact hs
        · rw [he]

/-- Claim C7 witness: at `now = 10` with window `6`, the queue
`[(1,2,t=0), (3,4,t=5)]` (non-decreasing timestamps) keeps the sample of
age `5 ≤ 6` and the retained samples are a suffix of the queue. -/
theorem evict_samples_window_correct_witness :
    List.Pairwise (fun a b => a.2.2 ≤ b.2.2)
      [((1 : ℤ), (2 : ℤ), (0 : ℕ)), ((3 : ℤ), (4 : ℤ), (5 : ℕ))] ∧
    ((3 : ℤ), (4 : ℤ), (5 : ℕ)) ∈
      evict_samples [((1 : ℤ), (2 : ℤ), (0 : ℕ)), ((3 : ℤ), (4 : ℤ), (5 : ℕ))] 10 6 ∧
    (evict_samples [((1 : ℤ), (2 : ℤ), (0 : ℕ)), ((3 : ℤ), (4 : ℤ), (5 : ℕ))] 10 6).IsSuffix
      [((1 : ℤ), (2 : ℤ), (0 : ℕ)), ((3 : ℤ), (4 : ℤ), (5 : ℕ))] :=
  ⟨by decide,
   (evict_samples_window_correct _ 10 6 (by decide)).2.1 _ (by decide) (by decide),
   (evict_samples_window_correct _ 10 6 (by decide)).2.2⟩

/-- Whether an optional binding-table entry is an analog action. -/
def isAnalogAction : Option ControllerAction → Prop
  | some (ControllerAction.AnalogLeft _ _) => True
  | some (ControllerAction.AnalogRight _ _) => True
  | _ => False

/-- Claim C8: after the `EventHandler::new` fix-up the binding table
always maps `MouseMove` to an analog action.  When the configuration
omits the `MouseMove` bind or maps it to a `Button` action, the default
`AnalogRight(1.0, -1.0)` is substituted and the diagnostic flag is set;
the fix-up is total, so construction cannot fail on its account.
Configurations that already map `MouseMove` to an analog action are left
entirely unchanged, with no diagnostic. -/
theorem mouse_move_bind_default_substitution
    (binds : Bind → Option ControllerAction) :
    isAnalogAction ((fix_mouse_move_bind binds).1 Bind.MouseMove) ∧
    ((binds Bind.MouseMove = none ∨
        (∃ b, binds Bind.MouseMove = some (ControllerAction.Button b))) →
      (fix_mouse_move_bind binds).1 Bind.MouseMove =
          some (ControllerAction.AnalogRight 1 (-1)) ∧
        (fix_mouse_move_bind binds).2 = true) ∧
    (∀ x y : ℝ, binds Bind.MouseMove = some (ControllerAction.AnalogLeft x y) →
      fix_mouse_move_bind binds = (binds, false)) ∧
    (∀ x y : ℝ, binds Bind.MouseMove = some (ControllerAction.AnalogRight x y) →
      fix_mouse_move_bind binds = (binds, false)) := by
  rcases hb : binds Bind.MouseMove with _ | (b | ⟨x, y⟩ | ⟨x, y⟩)
  · refine ⟨?_, fun _ => ?_, ?_, ?_⟩
    · simp [fix_mouse_move_bind, hb, insertBind, isAnalogAction]
    · constructor <;> simp [fix_mouse_move_bind, hb, insertBind]
    · intro x y hxy
      exact Option.noConfusion hxy
    · intro x y hxy
      exact Option.noConfusion hxy
  · refine ⟨?_, fun _ => ?_, ?_, ?_⟩
    · simp [fix_mouse_move_bind, hb, insertBind, isAnalogAction]
    · constructor <;> simp [fix_mouse_move_bind, hb, insertBind]
    · intro x y hxy
      exact absurd hxy (by simp)
    · intro x y hxy
      exact absurd hxy (by simp)
  · refine ⟨?_, fun hcase => ?_, ?_, ?_⟩
    · simp [fix_mouse_move_bind, hb, isAnalogAction]
    · exact absurd hcase (by simp)
    · intro x' y' _
      simp [fix_mouse_move_bind, hb]
    · intro x' y' hxy
      exact absurd hxy (by simp)
  · refine ⟨?_, fun hcase => ?_, ?_, ?_⟩
    · simp [fix_mouse_move_bind, hb, isAnalogAction]
    · exact absurd hcase (by simp)
    · intro x' y' hxy
      exact absurd hxy (by simp)
    · intro x' y' _
      simp [fix_mouse_move_bind, hb]

/-- Claim C8 witness: a configuration with no binds at all gets the
default `AnalogRight(1, -1)` substituted for `MouseMove`, with the
diagnostic flag set. -/
theorem mouse_move_bind_default_substitution_witness :
    isAnalogAction ((fix_mouse_move_bind (fun _ => none)).1 Bind.MouseMove) ∧
    (fix_mouse_move_bind (fun _ => none)).1 Bind.MouseMove =
      some (ControllerAction.AnalogRight 1 (-1)) ∧
    (fix_mouse_move_bind (fun _ => none)).2 = true :=
  ⟨(mouse_move_bind_default_substitution (fun _ => none)).1,
   ((mouse_move_bind_default_substitution (fun _ => none)).2.1 (Or.inl rfl)).1,
   ((mouse_move_bind_default_substitution (fun _ => none)).2.1 (Or.inl rfl)).2⟩

/-- Claim C10: the `Display` implementation for `KeyState` renders the
string `"Up"` for every value — including `KeyState.Down` — so any
diagnostic text formatted through it reports a held key as released. -/
theorem keystate_display_always_up :
    (∀ s : KeyState, s.display = "Up") ∧
    KeyState.display KeyState.Down = "Up" :=
  ⟨fun s => by cases s <;> rfl, rfl⟩

/-- Claim C2: handling a `Reset` event zeroes every field of the
controller report (the button bitmask, both trigger bytes, and all four
stick axes) and sets both remembered mouse-button states to `Up`,
regardless of the prior state, while leaving the `analog_state` map and
the mouse sample queue untouched. -/
theorem reset_event_clears_report_and_buttons
    (binds : Bind → Option ControllerAction) (mouse_button_fix : Bool)
    (now : ℕ) (st : EventHandlerState) :
    (handle_event binds mouse_button_fix now st Event.Reset).report.w_buttons = 0 ∧
    (handle_event binds mouse_button_fix now st Event.Reset).report.b_left_trigger = 0 ∧
    (handle_event binds mouse_button_fix now st Event.Reset).report.b_right_trigger = 0 ∧
    (handle_event binds mouse_button_fix now st Event.Reset).report.s_thumb_lx = 0 ∧
    (handle_event binds mouse_button_fix now st Event.Reset).report.s_thumb_ly = 0 ∧
    (handle_event binds mouse_button_fix now st Event.Reset).report.s_thumb_rx = 0 ∧
    (handle_event binds mouse_button_fix now st Event.Reset).report.s_thumb_ry = 0 ∧
    (handle_event binds mouse_button_fix now st Event.Reset).mouse_button_states =
      (KeyState.Up, KeyState.Up) ∧
    (handle_event binds mouse_button_fix now st Event.Reset).analog_state =
      st.analog_state ∧
    (handle_event binds mouse_button_fix now st Event.Reset).mouse_samples =
      st.mouse_samples :=
  ⟨rfl, rfl, rfl, rfl, rfl, rfl, rfl, rfl, rfl, rfl⟩

/-- Claim C5: with the mouse-button fix enabled, processing any mouse
button event with state `Up` re-asserts a synthetic `Down` bind
transition for exactly those of the Left/Right mouse binds whose
remembered state after recording the incoming event is still `Down`
(never for one whose recorded state is `Up`); the fix emits only `Down`
re-assertions and emits nothing on `Down` events.  In the scenario
Left=Down, Right=Down with a Right-Up event, a `Down` is re-issued for
Left and not for Right. -/
theorem mouse_button_fix_reasserts_down
    (states : KeyState × KeyState) (button : MouseButton) (state : KeyState) :
    (state = KeyState.Up →
      (((Bind.Mouse MouseButton.Left, KeyState.Down) ∈
          (mouse_button_calls true states button state).tail) ↔
        (record_mouse_button states button state).1 = KeyState.Down) ∧
      (((Bind.Mouse MouseButton.Right, KeyState.Down) ∈
          (mouse_button_calls true states button state).tail) ↔
        (record_mouse_button states button state).2 = KeyState.Down)) ∧
    (∀ p ∈ (mouse_button_calls true states button state).tail, p.2 = KeyState.Down) ∧
    (state = KeyState.Down → (mouse_button_calls true states button state).tail = []) ∧
    mouse_button_calls true (KeyState.Down, KeyState.Down) MouseButton.Right KeyState.Up =
      [(Bind.Mouse MouseButton.Right, KeyState.Up),
       (Bind.Mouse MouseButton.Left, KeyState.Down)] := by
  obtain ⟨a, b⟩ := states
  cases a <;> cases b <;> cases button <;> cases state <;> decide

/-- Claim C5 witness: `mouse_button_fix_reasserts_down` at the scenario
state Left=Down, Right=Down with a Right-Up event. -/
theorem mouse_button_fix_reasserts_down_witness :
    (((Bind.Mouse MouseButton.Left, KeyState.Down) ∈
        (mouse_button_calls true (KeyState.Down, KeyState.Down)
          MouseButton.Right KeyState.Up).tail) ↔
      (record_mouse_button (KeyState.Down, KeyState.Down)
        MouseButton.Right KeyState.Up).1 = KeyState.Down) ∧
    mouse_button_calls true (KeyState.Down, KeyState.Down) MouseButton.Right KeyState.Up =
      [(Bind.Mouse MouseButton.Right, KeyState.Up),
       (Bind.Mouse MouseButton.Left, KeyState.Down)] :=
  ⟨((mouse_button_fix_reasserts_down (KeyState.Down, KeyState.Down)
      MouseButton.Right KeyState.Up).1 rfl).1,
   (mouse_button_fix_reasserts_down (KeyState.Down, KeyState.Down)
      MouseButton.Right KeyState.Up).2.2.2⟩

/-- Claim C1 counterexample: with `Keyboard 30` bound to
`AnalogLeft(1, 2)` and an empty `analog_state` map, handling an Up
transition is not a no-op: the source's `contains_key && state == Up`
guard fails, control falls through to the insert, and an entry for the
bind is created. -/
theorem handle_bind_up_without_entry_inserts :
    init_state.analog_state (Bind.Keyboard 30) = none ∧
    (handle_bind
        (fun k => if k = Bind.Keyboard 30
          then some (ControllerAction.AnalogLeft 1 2) else none)
        init_state (Bind.Keyboard 30) KeyState.Up).analog_state (Bind.Keyboard 30) =
      some ⟨AnalogType.Left, 1, 2⟩ := by
  constructor
  · rfl
  · simp [handle_bind, init_state]

/-- Claim C1 (amended): for a `Bind` mapped to `AnalogLeft` or
`AnalogRight`, a Down transition upserts exactly one `analog_state`
entry keyed by that bind with the configured stick and `(x, y)` factors,
leaving the report and every other key untouched; an Up transition
removes the entry when one exists; but an Up with no entry present falls
through to the insert of the configured entry, so a stray Up is not a
no-op.  Two consecutive Up transitions leave the map unchanged exactly
when the prior entry, if any, held the configured values (in particular
when starting from no entry). -/
theorem handle_bind_analog_transitions
    (binds : Bind → Option ControllerAction) (st : EventHandlerState)
    (bind : Bind) (x y : ℝ) :
    (binds bind = some (ControllerAction.AnalogLeft x y) →
      ((handle_bind binds st bind KeyState.Down).analog_state =
          fun k => if k = bind then some ⟨AnalogType.Left, x, y⟩
            else st.analog_state k) ∧
      (handle_bind binds st bind KeyState.Down).report = st.report ∧
      ((st.analog_state bind).isSome = true →
        (handle_bind binds st bind KeyState.Up).analog_state =
          fun k => if k = bind then none else st.analog_state k) ∧
      (st.analog_state bind = none →
        (handle_bind binds st bind KeyState.Up).analog_state =
          fun k => if k = bind then some ⟨AnalogType.Left, x, y⟩
            else st.analog_state k) ∧
      ((st.analog_state bind = none ∨
          st.analog_state bind = some ⟨AnalogType.Left, x, y⟩) →
        (handle_bind binds (handle_bind binds st bind KeyState.Up) bind
            KeyState.Up).analog_state = st.analog_state)) ∧
    (binds bind = some (ControllerAction.AnalogRight x y) →
      ((handle_bind binds st bind KeyState.Down).analog_state =
          fun k => if k = bind then some ⟨AnalogType.Right, x, y⟩
            else st.analog_state k) ∧
      (handle_bind binds st bind KeyState.Down).report = st.report ∧
      ((st.analog_state bind).isSome = true →
        (handle_bind binds st bind KeyState.Up).analog_state =
          fun k => if k = bind then none else st.analog_state k) ∧
      (st.analog_state bind = none →
        (handle_bind binds st bind KeyState.Up).analog_state =
          fun k => if k = bind then some ⟨AnalogType.Right, x, y⟩
            else st.analog_state k) ∧
      ((st.analog_state bind = none ∨
          st.analog_state bind = some ⟨AnalogType.Right, x, y⟩) →
        (handle_bind binds (handle_bind binds st bind KeyState.Up) bind
            KeyState.Up).analog_state = st.analog_state)) := by
  constructor
  · intro hb
    refine ⟨?_, ?_, ?_, ?_, ?_⟩
    · simp [handle_bind, hb]
    · simp [handle_bind, hb]
    · intro h
      simp [handle_bind, hb, h]
    · intro h
      simp [handle_bind, hb, h]
    · intro h
      rcases h with h | h <;>
      · funext k
        by_cases hk : k = bind <;> simp [handle_bind, hb, h, hk]
  · intro hb
    refine ⟨?_, ?_, ?_, ?_, ?_⟩
    · simp [handle_bind, hb]
    · simp [handle_bind, hb]
    · intro h
      simp [handle_bind, hb, h]
    · intro h
      simp [handle_bind, hb, h]
    · intro h
      rcases h with h | h <;>
      · funext k
        by_cases hk : k = bind <;> simp [handle_bind, hb, h, hk]

/-- Claim C1 witness: `handle_bind_analog_transitions` at a concrete
table binding `Keyboard 30` to `AnalogLeft(1, 2)` and the initial
(empty) state: a Down transition creates exactly the configured entry
and leaves the report untouched. -/
theorem handle_bind_analog_transitions_witness :
    (handle_bind
        (fun k => if k = Bind.Keyboard 30
          then some (ControllerAction.AnalogLeft 1 2) else none)
        init_state (Bind.Keyboard 30) KeyState.Down).analog_state =
      (fun k => if k = Bind.Keyboard 30 then some ⟨AnalogType.Left, 1, 2⟩
        else init_state.analog_state k) ∧
    (handle_bind
        (fun k => if k = Bind.Keyboard 30
          then some (ControllerAction.AnalogLeft 1 2) else none)
        init_state (Bind.Keyboard 30) KeyState.Down).report = init_state.report :=
  ⟨((handle_bind_analog_transitions _ init_state (Bind.Keyboard 30) 1 2).1 (by simp)).1,
   ((handle_bind_analog_transitions _ init_state (Bind.Keyboard 30) 1 2).1 (by simp)).2.1⟩

end Kmxpad
